import Mathlib

/-!
Shallow embedding of `napari/layers/image/experimental/octree_level.py`.

The embedding models `OctreeLevelInfo` (the spec's "LevelGeometry") and
`OctreeLevel` (the spec's "TileCache") from the source.  Python integers are
modelled by `Nat`/`Int` with exact arithmetic; `math.ceil(a / b)` and
`int(a / b)` on non-negative exact values are `(a + b - 1) / b` and `a / b`
on `Nat`.  The numpy array held by a level is modelled as a nested list of
`Int` samples, either 2-dimensional (`d2`) or 3-dimensional (`d3`), and numpy
basic slicing `xs[a:b]` with non-negative clamped bounds is `drop`/`take`.
The Python dict `_tiles` is an association list searched from the front;
insertion conses a fresh key, which only happens when the key is absent.
-/

/-- Exact-arithmetic model of Python `math.ceil(a / b)` for natural `a`, `b`. -/
def natCeilDiv (a b : Nat) : Nat := (a + b - 1) / b

/-- Model of `OctreeMetadata` (the spec's LevelMetadata): base image shape
as (height, width), level-0 tile edge length, and an opaque layer
reference modelled by a bare identifier. -/
structure OctreeMetadata where
  base_shape : Nat × Nat
  tile_size : Nat
  layer_ref : Nat
  deriving DecidableEq

/-- Fields computed by `OctreeLevelInfo.__init__` (the spec's LevelGeometry). -/
structure OctreeLevelInfo where
  meta : OctreeMetadata
  level_index : Nat
  scale : Nat
  image_shape : Nat × Nat
  rows : Nat
  cols : Nat
  shape_in_tiles : Nat × Nat
  num_tiles : Nat
  deriving DecidableEq

/-- Embedding of `OctreeLevelInfo.__init__`: scale is 2^level_index,
image_shape is the base shape divided by scale (truncating), and the
tile-grid dimensions are ceiling divisions by the scaled tile size. -/
def OctreeLevelInfo.make (meta : OctreeMetadata) (level_index : Nat) :
    OctreeLevelInfo :=
  let scale := 2 ^ level_index
  let image_shape := (meta.base_shape.1 / scale, meta.base_shape.2 / scale)
  let scaled_size := meta.tile_size * scale
  let rows := natCeilDiv meta.base_shape.1 scaled_size
  let cols := natCeilDiv meta.base_shape.2 scaled_size
  { meta := meta
    level_index := level_index
    scale := scale
    image_shape := image_shape
    rows := rows
    cols := cols
    shape_in_tiles := (rows, cols)
    num_tiles := rows * cols }

/-- Model of the `ArrayLike` data held by a level: a 2-d array of samples or a
3-d array whose trailing axis holds the color channels. -/
inductive ArrayLike where
  | d2 : List (List Int) → ArrayLike
  | d3 : List (List (List Int)) → ArrayLike
  deriving DecidableEq

/-- Embedding of `OctreeLocation`: the immutable identity of a chunk. -/
structure OctreeLocation where
  layer_ref : Nat
  slice_id : Nat
  level_index : Nat
  row : Nat
  col : Nat
  deriving DecidableEq

/-- Embedding of `OctreeChunkGeom`: render position and per-axis scale. -/
structure OctreeChunkGeom where
  pos : Nat × Nat
  scale_vec : Nat × Nat
  deriving DecidableEq

/-- Embedding of `OctreeChunk`: the sliced data plus location and geometry. -/
structure OctreeChunk where
  data : ArrayLike
  location : OctreeLocation
  geom : OctreeChunkGeom
  deriving DecidableEq

/-- Model of numpy basic slicing `xs[r0:r1, c0:c1]` on a nested list (both
bounds non-negative; out-of-range parts clip, exactly as numpy slices do). -/
def slice2 (r0 r1 c0 c1 : Nat) (xs : List (List α)) : List (List α) :=
  ((xs.drop r0).take (r1 - r0)).map fun r => (r.drop c0).take (c1 - c0)

/-- Embedding of `OctreeLevel`: slice id, the level's data, the computed
level info, and the `_tiles` dict as an association list. -/
structure OctreeLevel where
  slice_id : Nat
  data : ArrayLike
  info : OctreeLevelInfo
  tiles : List ((Int × Int) × OctreeChunk)
  deriving DecidableEq

/-- Lookup in the `_tiles` dict model: first binding of the key wins. -/
def tileLookup (k : Int × Int) : List ((Int × Int) × OctreeChunk) → Option OctreeChunk
  | [] => none
  | (k2, ch) :: rest => if k = k2 then some ch else tileLookup k rest

/-- Embedding of `OctreeLevel.__init__`: the tiles dict starts empty. -/
def OctreeLevel.init (slice_id : Nat) (data : ArrayLike) (meta : OctreeMetadata)
    (level_index : Nat) : OctreeLevel :=
  { slice_id := slice_id
    data := data
    info := OctreeLevelInfo.make meta level_index
    tiles := [] }

/-- Embedding of `OctreeLevel._get_data`: slice the level's data over
rows [row*tile_size, (row+1)*tile_size) and the same for columns; a 3-d
array keeps its trailing color axis unsliced. -/
def OctreeLevel.get_data (self : OctreeLevel) (row col : Nat) : ArrayLike :=
  let tile_size := self.info.meta.tile_size
  let r0 := row * tile_size
  let r1 := (row + 1) * tile_size
  let c0 := col * tile_size
  let c1 := (col + 1) * tile_size
  match self.data with
  | ArrayLike.d2 xs => ArrayLike.d2 (slice2 r0 r1 c0 c1 xs)
  | ArrayLike.d3 xs => ArrayLike.d3 (slice2 r0 r1 c0 c1 xs)

/-- Embedding of `OctreeLevel._create_chunk`: build the location, the geometry
with position (col*tile_size*scale, row*tile_size*scale) and per-axis scale
(scale, scale), slice the data, and assemble the chunk. -/
def OctreeLevel.create_chunk (self : OctreeLevel) (row col : Nat) : OctreeChunk :=
  let level_index := self.info.level_index
  let layer_ref := self.info.meta.layer_ref
  let location : OctreeLocation :=
    { layer_ref := layer_ref
      slice_id := self.slice_id
      level_index := level_index
      row := row
      col := col }
  let scale := self.info.scale
  let scale_vec := (scale, scale)
  let tile_size := self.info.meta.tile_size
  let scaled_size := tile_size * scale
  let pos := (col * scaled_size, row * scaled_size)
  let geom : OctreeChunkGeom := { pos := pos, scale_vec := scale_vec }
  let data := self.get_data row col
  { data := data, location := location, geom := geom }

/-- Embedding of `OctreeLevel.get_chunk`: return the cached chunk if present;
otherwise return none unless `create` is set; with `create`, bounds-check
against `shape_in_tiles` and either return none (out of bounds) or create,
cache and return a new chunk.  The Python method mutates `self._tiles`; here
the updated level is returned alongside the result. -/
def OctreeLevel.get_chunk (self : OctreeLevel) (row col : Int) (create : Bool) :
    Option OctreeChunk × OctreeLevel :=
  match tileLookup (row, col) self.tiles with
  | some chunk => (some chunk, self)
  | none =>
    if create then
      if row < 0 ∨ (self.info.shape_in_tiles.1 : Int) ≤ row
          ∨ col < 0 ∨ (self.info.shape_in_tiles.2 : Int) ≤ col then
        (none, self)
      else
        let octree_chunk := self.create_chunk row.toNat col.toNat
        (some octree_chunk,
          { self with tiles := ((row, col), octree_chunk) :: self.tiles })
    else (none, self)

/-- In-bounds predicate used by the bounds check of `get_chunk`. -/
def OctreeLevel.inBounds (self : OctreeLevel) (row col : Int) : Prop :=
  0 ≤ row ∧ row < (self.info.shape_in_tiles.1 : Int) ∧
    0 ≤ col ∧ col < (self.info.shape_in_tiles.2 : Int)

instance (s : OctreeLevel) (row col : Int) : Decidable (s.inBounds row col) :=
  show Decidable (0 ≤ row ∧ row < (s.info.shape_in_tiles.1 : Int) ∧
    0 ≤ col ∧ col < (s.info.shape_in_tiles.2 : Int)) from inferInstance

/-- Run a sequence of `get_chunk` calls against a level, threading the state. -/
def OctreeLevel.run (self : OctreeLevel) :
    List (Int × Int × Bool) → OctreeLevel
  | [] => self
  | (r, c, b) :: rest => ((self.get_chunk r c b).2).run rest

/-- Cache invariant: every cached binding is keyed in bounds and holds exactly
the chunk `_create_chunk` builds for that key. -/
def OctreeLevel.cacheInv (self : OctreeLevel) : Prop :=
  ∀ r c ch, tileLookup (r, c) self.tiles = some ch →
    self.inBounds r c ∧ ch = self.create_chunk r.toNat c.toNat

lemma tileLookup_cons (k k2 : Int × Int) (ch : OctreeChunk)
    (rest : List ((Int × Int) × OctreeChunk)) :
    tileLookup k ((k2, ch) :: rest) =
      if k = k2 then some ch else tileLookup k rest := rfl

lemma get_chunk_cached (s : OctreeLevel) (row col : Int) (b : Bool)
    (ch : OctreeChunk) (h : tileLookup (row, col) s.tiles = some ch) :
    s.get_chunk row col b = (some ch, s) := by
  simp [OctreeLevel.get_chunk, h]

lemma get_chunk_miss_no_create (s : OctreeLevel) (row col : Int)
    (h : tileLookup (row, col) s.tiles = none) :
    s.get_chunk row col false = (none, s) := by
  simp [OctreeLevel.get_chunk, h]

lemma get_chunk_miss_oob (s : OctreeLevel) (row col : Int)
    (h : tileLookup (row, col) s.tiles = none) (hb : ¬ s.inBounds row col) :
    s.get_chunk row col true = (none, s) := by
  have hc : row < 0 ∨ (s.info.shape_in_tiles.1 : Int) ≤ row
      ∨ col < 0 ∨ (s.info.shape_in_tiles.2 : Int) ≤ col := by
    unfold OctreeLevel.inBounds at hb
    omega
  unfold OctreeLevel.get_chunk
  rw [h]
  simp only [if_pos hc]
  simp

lemma get_chunk_miss_create (s : OctreeLevel) (row col : Int)
    (h : tileLookup (row, col) s.tiles = none) (hb : s.inBounds row col) :
    s.get_chunk row col true =
      (some (s.create_chunk row.toNat col.toNat),
        { s with tiles :=
            ((row, col), s.create_chunk row.toNat col.toNat) :: s.tiles }) := by
  have hc : ¬ (row < 0 ∨ (s.info.shape_in_tiles.1 : Int) ≤ row
      ∨ col < 0 ∨ (s.info.shape_in_tiles.2 : Int) ≤ col) := by
    unfold OctreeLevel.inBounds at hb
    omega
  unfold OctreeLevel.get_chunk
  rw [h]
  simp only [if_neg hc, Bool.true_eq_false, if_true]

lemma get_chunk_state (s : OctreeLevel) (row col : Int) (b : Bool) :
    ((s.get_chunk row col b).2).slice_id = s.slice_id ∧
    ((s.get_chunk row col b).2).data = s.data ∧
    ((s.get_chunk row col b).2).info = s.info := by
  cases h : tileLookup (row, col) s.tiles with
  | some ch =>
    rw [get_chunk_cached s row col b ch h]
    exact ⟨rfl, rfl, rfl⟩
  | none =>
    cases b with
    | false =>
      rw [get_chunk_miss_no_create s row col h]
      exact ⟨rfl, rfl, rfl⟩
    | true =>
      by_cases hb : s.inBounds row col
      · rw [get_chunk_miss_create s row col h hb]
        exact ⟨rfl, rfl, rfl⟩
      · rw [get_chunk_miss_oob s row col h hb]
        exact ⟨rfl, rfl, rfl⟩

/-- C1: calling get_chunk(r, c, create=true) twice in sequence gives the same
result both times and the second call leaves the state untouched (it returns
the cached entry, never constructing a new chunk); moreover after the first
call the cache holds exactly the returned chunk under key (r, c). -/
theorem get_chunk_create_idempotent (s : OctreeLevel) (row col : Int) :
    ((s.get_chunk row col true).2).get_chunk row col true =
      s.get_chunk row col true ∧
    tileLookup (row, col) ((s.get_chunk row col true).2).tiles =
      (s.get_chunk row col true).1 := by
  cases h : tileLookup (row, col) s.tiles with
  | some ch =>
    rw [get_chunk_cached s row col true ch h]
    exact ⟨get_chunk_cached s row col true ch h, h⟩
  | none =>
    by_cases hb : s.inBounds row col
    · rw [get_chunk_miss_create s row col h hb]
      have h2 : tileLookup (row, col)
          ({ s with tiles :=
              ((row, col), s.create_chunk row.toNat col.toNat)
                :: s.tiles } : OctreeLevel).tiles =
          some (s.create_chunk row.toNat col.toNat) := by
        simp [tileLookup_cons]
      exact ⟨get_chunk_cached _ row col true _ h2, h2⟩
    · rw [get_chunk_miss_oob s row col h hb]
      exact ⟨get_chunk_miss_oob s row col h hb, h⟩

/-- C2: with create=true, get_chunk returns absent exactly when the key is
not cached and lies outside the tile grid; in that case the whole level state
(in particular the cache mapping) is unchanged, and in every other case a
chunk is returned. -/
theorem get_chunk_create_absent_iff (s : OctreeLevel) (row col : Int) :
    ((s.get_chunk row col true).1 = none ↔
      tileLookup (row, col) s.tiles = none ∧ ¬ s.inBounds row col) ∧
    ((s.get_chunk row col true).1 = none → (s.get_chunk row col true).2 = s) := by
  cases h : tileLookup (row, col) s.tiles with
  | some ch =>
    rw [get_chunk_cached s row col true ch h]
    simp [h]
  | none =>
    by_cases hb : s.inBounds row col
    · rw [get_chunk_miss_create s row col h hb]
      simp [hb]
    · rw [get_chunk_miss_oob s row col h hb]
      simp [h, hb]

/-- C7: a non-creating probe for a key that is not in the cache returns absent
and leaves the level (cache mapping included) entirely unchanged. -/
theorem get_chunk_probe_absent (s : OctreeLevel) (row col : Int)
    (h : tileLookup (row, col) s.tiles = none) :
    s.get_chunk row col false = (none, s) :=
  get_chunk_miss_no_create s row col h

/-- C10: get_chunk, with either value of create, mutates only the tiles
mapping: the data reference, the slice id and the whole level info (hence
level_index, scale, image_shape, rows, cols, num_tiles) are unchanged. -/
theorem get_chunk_frame_effect (s : OctreeLevel) (row col : Int) (b : Bool) :
    ((s.get_chunk row col b).2).slice_id = s.slice_id ∧
    ((s.get_chunk row col b).2).data = s.data ∧
    ((s.get_chunk row col b).2).info = s.info :=
  get_chunk_state s row col b

lemma cacheInv_step (s : OctreeLevel) (hs : s.cacheInv) (row col : Int)
    (b : Bool) : ((s.get_chunk row col b).2).cacheInv := by
  cases h : tileLookup (row, col) s.tiles with
  | some ch =>
    rw [get_chunk_cached s row col b ch h]
    exact hs
  | none =>
    cases b with
    | false =>
      rw [get_chunk_miss_no_create s row col h]
      exact hs
    | true =>
      by_cases hb : s.inBounds row col
      · rw [get_chunk_miss_create s row col h hb]
        intro r c ch hch
        rw [tileLookup_cons] at hch
        by_cases hk : ((r, c) : Int × Int) = (row, col)
        · rw [if_pos hk] at hch
          have hr : r = row := congrArg Prod.fst hk
          have hc : c = col := congrArg Prod.snd hk
          subst hr
          subst hc
          refine ⟨hb, ?_⟩
          exact (Option.some_inj.mp hch).symm
        · rw [if_neg hk] at hch
          exact hs r c ch hch
      · rw [get_chunk_miss_oob s row col h hb]
        exact hs

lemma run_state (calls : List (Int × Int × Bool)) (s : OctreeLevel) :
    (s.run calls).slice_id = s.slice_id ∧ (s.run calls).data = s.data ∧
      (s.run calls).info = s.info := by
  induction calls generalizing s with
  | nil => exact ⟨rfl, rfl, rfl⟩
  | cons hd tl ih =>
    obtain ⟨r, c, b⟩ := hd
    have h1 := get_chunk_state s r c b
    have h2 := ih ((s.get_chunk r c b).2)
    exact ⟨h2.1.trans h1.1, h2.2.1.trans h1.2.1, h2.2.2.trans h1.2.2⟩

lemma run_cacheInv (calls : List (Int × Int × Bool)) (s : OctreeLevel)
    (hs : s.cacheInv) : (s.run calls).cacheInv := by
  induction calls generalizing s with
  | nil => exact hs
  | cons hd tl ih =>
    obtain ⟨r, c, b⟩ := hd
    exact ih ((s.get_chunk r c b).2) (cacheInv_step s hs r c b)

lemma init_cacheInv (slice_id : Nat) (data : ArrayLike) (meta : OctreeMetadata)
    (level_index : Nat) : (OctreeLevel.init slice_id data meta level_index).cacheInv := by
  intro r c ch hch
  simp [OctreeLevel.init, tileLookup] at hch

lemma get_chunk_lookup_mono (s : OctreeLevel) (row col : Int) (b : Bool)
    (k : Int × Int) (ch : OctreeChunk) (h : tileLookup k s.tiles = some ch) :
    tileLookup k ((s.get_chunk row col b).2).tiles = some ch := by
  cases h2 : tileLookup (row, col) s.tiles with
  | some ch2 =>
    rw [get_chunk_cached s row col b ch2 h2]
    exact h
  | none =>
    cases b with
    | false =>
      rw [get_chunk_miss_no_create s row col h2]
      exact h
    | true =>
      by_cases hb : s.inBounds row col
      · rw [get_chunk_miss_create s row col h2 hb]
        rw [tileLookup_cons]
        by_cases hk : k = (row, col)
        · rw [hk] at h
          rw [h] at h2
          cases h2
        · rw [if_neg hk]
          exact h
      · rw [get_chunk_miss_oob s row col h2 hb]
        exact h

/-- C8: the cache only grows: once a key maps to a chunk, it maps to that same
chunk after any further sequence of get_chunk calls; no call removes a key or
replaces its value. -/
theorem tiles_monotone (s : OctreeLevel) (calls : List (Int × Int × Bool))
    (k : Int × Int) (ch : OctreeChunk) (h : tileLookup k s.tiles = some ch) :
    tileLookup k (s.run calls).tiles = some ch := by
  induction calls generalizing s with
  | nil => exact h
  | cons hd tl ih =>
    obtain ⟨r, c, b⟩ := hd
    exact ih ((s.get_chunk r c b).2) (get_chunk_lookup_mono s r c b k ch h)

/-- C9: in every state reachable from a fresh level by get_chunk calls, every
key present in the cache is in bounds; an out-of-bounds slot is never
materialized. -/
theorem tiles_keys_in_bounds (slice_id : Nat) (data : ArrayLike)
    (meta : OctreeMetadata) (level_index : Nat)
    (calls : List (Int × Int × Bool)) (r c : Int) (ch : OctreeChunk)
    (h : tileLookup (r, c)
        ((OctreeLevel.init slice_id data meta level_index).run calls).tiles
      = some ch) :
    0 ≤ r ∧ r < ((OctreeLevelInfo.make meta level_index).rows : Int) ∧
      0 ≤ c ∧ c < ((OctreeLevelInfo.make meta level_index).cols : Int) := by
  have hinv := run_cacheInv calls _ (init_cacheInv slice_id data meta level_index)
  have hb := (hinv r c ch h).1
  have hinfo :
      ((OctreeLevel.init slice_id data meta level_index).run calls).info
        = OctreeLevelInfo.make meta level_index :=
    (run_state calls _).2.2
  unfold OctreeLevel.inBounds at hb
  rw [hinfo] at hb
  exact hb

lemma nat_lt_div_succ_mul (a s : Nat) (hs : 0 < s) : a < (a / s + 1) * s :=
  (Nat.div_lt_iff_lt_mul hs).mp (Nat.lt_succ_self _)

lemma natCeilDiv_spec (b s : Nat) (hb : 0 < b) (hs : 0 < s) :
    b ≤ natCeilDiv b s * s ∧ ∀ n : Nat, b ≤ n * s → natCeilDiv b s ≤ n := by
  unfold natCeilDiv
  have hrw : b + s - 1 = (b - 1) + s := by omega
  rw [hrw, Nat.add_div_right _ hs]
  constructor
  · have h2 : b - 1 < ((b - 1) / s + 1) * s := nat_lt_div_succ_mul _ _ hs
    omega
  · intro n hn
    have hlt : b - 1 < n * s := by omega
    have := (Nat.div_lt_iff_lt_mul hs).mpr hlt
    omega

/-- C3: for positive base shape and tile size, the level's rows and cols are
exactly the ceiling divisions of the base dimensions by tile_size * 2^level:
rows * scaled covers the base height and rows is the least such count (and
likewise for cols), and num_tiles = rows * cols. -/
theorem levelInfo_rows_cols_ceil (meta : OctreeMetadata) (level_index : Nat)
    (h1 : 0 < meta.base_shape.1) (h2 : 0 < meta.base_shape.2)
    (ht : 0 < meta.tile_size) :
    (meta.base_shape.1 ≤ (OctreeLevelInfo.make meta level_index).rows
        * (meta.tile_size * 2 ^ level_index) ∧
      ∀ n : Nat, meta.base_shape.1 ≤ n * (meta.tile_size * 2 ^ level_index) →
        (OctreeLevelInfo.make meta level_index).rows ≤ n) ∧
    (meta.base_shape.2 ≤ (OctreeLevelInfo.make meta level_index).cols
        * (meta.tile_size * 2 ^ level_index) ∧
      ∀ n : Nat, meta.base_shape.2 ≤ n * (meta.tile_size * 2 ^ level_index) →
        (OctreeLevelInfo.make meta level_index).cols ≤ n) ∧
    (OctreeLevelInfo.make meta level_index).num_tiles =
      (OctreeLevelInfo.make meta level_index).rows
        * (OctreeLevelInfo.make meta level_index).cols := by
  have hs : 0 < meta.tile_size * 2 ^ level_index :=
    Nat.mul_pos ht (Nat.pow_pos (by norm_num))
  exact ⟨natCeilDiv_spec meta.base_shape.1 _ h1 hs,
    natCeilDiv_spec meta.base_shape.2 _ h2 hs, rfl⟩

theorem levelInfo_rows_cols_ceil_witness :
    0 < (250 : Nat) ∧ 0 < (100 : Nat) ∧
    250 ≤ (OctreeLevelInfo.make ⟨(250, 250), 100, 5⟩ 0).rows * (100 * 2 ^ 0) ∧
    (OctreeLevelInfo.make ⟨(250, 250), 100, 5⟩ 0).rows ≤ 3 ∧
    (OctreeLevelInfo.make ⟨(250, 250), 100, 5⟩ 0).num_tiles =
      (OctreeLevelInfo.make ⟨(250, 250), 100, 5⟩ 0).rows *
        (OctreeLevelInfo.make ⟨(250, 250), 100, 5⟩ 0).cols := by
  have h := levelInfo_rows_cols_ceil ⟨(250, 250), 100, 5⟩ 0
    (by decide) (by decide) (by decide)
  exact ⟨by decide, by decide, h.1.1, h.1.2 3 (by decide), h.2.2⟩

/-- C4: image_shape is the base shape divided component-wise by 2^level_index
with truncating integer division: each component times the scale is at most
the base dimension, and one more would exceed it. -/
theorem levelInfo_image_shape_floor (meta : OctreeMetadata) (level_index : Nat) :
    (OctreeLevelInfo.make meta level_index).image_shape =
      (meta.base_shape.1 / 2 ^ level_index, meta.base_shape.2 / 2 ^ level_index) ∧
    (OctreeLevelInfo.make meta level_index).image_shape.1 * 2 ^ level_index
       ≤ meta.base_shape.1 ∧
    meta.base_shape.1 <
      ((OctreeLevelInfo.make meta level_index).image_shape.1 + 1) * 2 ^ level_index ∧
    (OctreeLevelInfo.make meta level_index).image_shape.2 * 2 ^ level_index
       ≤ meta.base_shape.2 ∧
    meta.base_shape.2 <
      ((OctreeLevelInfo.make meta level_index).image_shape.2 + 1) * 2 ^ level_index := by
  have hp : 0 < 2 ^ level_index := Nat.pow_pos (by norm_num)
  exact ⟨rfl, Nat.div_mul_le_self .., nat_lt_div_succ_mul _ _ hp,
    Nat.div_mul_le_self .., nat_lt_div_succ_mul _ _ hp⟩

/-- Small concrete level used by the witnesses: a 2x2 image with 1x1 tiles. -/
def metaW : OctreeMetadata := ⟨(2, 2), 1, 7⟩

/-- Concrete 2x2 data array used by the witnesses. -/
def dataW : ArrayLike := ArrayLike.d2 [[1, 2], [3, 4]]

/-- Concrete freshly initialized level used by the witnesses. -/
def levelW : OctreeLevel := OctreeLevel.init 3 dataW metaW 0

/-- Concrete chunk materialized at (0, 0) of the witness level. -/
def chunkW : OctreeChunk := levelW.create_chunk 0 0

/-- Witness level after one creating call at (0, 0). -/
def levelW1 : OctreeLevel := (levelW.get_chunk 0 0 true).2

theorem get_chunk_probe_absent_witness :
    tileLookup (0, 0) levelW.tiles = none ∧
    levelW.get_chunk 0 0 false = (none, levelW) :=
  ⟨rfl, get_chunk_probe_absent levelW 0 0 rfl⟩

theorem tiles_monotone_witness :
    tileLookup (0, 0) levelW1.tiles = some chunkW ∧
    tileLookup (0, 0) (levelW1.run [(1, 1, true), (0, 1, false)]).tiles
      = some chunkW := by
  refine ⟨by decide, ?_⟩
  exact tiles_monotone levelW1 [(1, 1, true), (0, 1, false)] (0, 0) chunkW (by decide)

theorem tiles_keys_in_bounds_witness :
    tileLookup (0, 0) ((OctreeLevel.init 3 dataW metaW 0).run [(0, 0, true)]).tiles
      = some chunkW ∧
    (0 ≤ (0 : Int) ∧ (0 : Int) < ((OctreeLevelInfo.make metaW 0).rows : Int) ∧
      0 ≤ (0 : Int) ∧ (0 : Int) < ((OctreeLevelInfo.make metaW 0).cols : Int)) := by
  refine ⟨by decide, ?_⟩
  exact tiles_keys_in_bounds 3 dataW metaW 0 [(0, 0, true)] 0 0 chunkW (by decide)

lemma slice1_length (a b : Nat) (xs : List α) :
    ((xs.drop a).take (b - a)).length = min b xs.length - a := by
  simp [List.length_take, List.length_drop]
  omega

lemma slice1_getD (d : α) (a b i : Nat) (xs : List α)
    (h : i < ((xs.drop a).take (b - a)).length) :
    ((xs.drop a).take (b - a)).getD i d = xs.getD (a + i) d := by
  have h1 : i < (xs.drop a).length := by
    simp [List.length_take, List.length_drop] at h ⊢
    omega
  have h2 : a + i < xs.length := by
    simp [List.length_drop] at h1
    omega
  rw [List.getD_eq_getElem _ d h, List.getD_eq_getElem _ d h2]
  rw [List.getElem_take]
  exact List.getElem_drop ..

/-- Specification of a clipped rectangular slice of a nested list, stated the
way the spec describes tile extraction: the result holds rows
[r0, min r1 height) and, within each, the entries [c0, min c1 width) of the
corresponding source row, clipping at the source's true extent.  Entries are
compared via getD with default `d`, so the statement is index-by-index. -/
def sliceSpec (d : α) (r0 r1 c0 c1 : Nat) (xs ys : List (List α)) : Prop :=
  ys.length = min r1 xs.length - r0 ∧
  ∀ i, i < ys.length →
    (ys.getD i []).length = min c1 (xs.getD (r0 + i) []).length - c0 ∧
    ∀ j, j < (ys.getD i []).length →
      (ys.getD i []).getD j d = (xs.getD (r0 + i) []).getD (c0 + j) d

lemma sliceSpec_slice2 (d : α) (r0 r1 c0 c1 : Nat) (xs : List (List α)) :
    sliceSpec d r0 r1 c0 c1 xs (slice2 r0 r1 c0 c1 xs) := by
  constructor
  · simp only [slice2, List.length_map]
    exact slice1_length r0 r1 xs
  · intro i hi
    have hi2 : i < ((xs.drop r0).take (r1 - r0)).length := by
      simpa [slice2, List.length_map] using hi
    have hmap : (slice2 r0 r1 c0 c1 xs).getD i [] =
        ((((xs.drop r0).take (r1 - r0)).getD i []).drop c0).take (c1 - c0) := by
      rw [List.getD_eq_getElem _ _ hi]
      rw [List.getD_eq_getElem _ _ hi2]
      simp [slice2]
    rw [hmap, slice1_getD [] r0 r1 i xs hi2]
    exact ⟨slice1_length c0 c1 _, fun j hj => slice1_getD d c0 c1 j _ hj⟩

/-- Lift of `sliceSpec` to the array model: the slice keeps the number of
dimensions, slices the first two axes with clipping, and in the 3-d case the
compared entries are whole color fibers, so the trailing axis is untouched. -/
def arraySliceSpec (r0 r1 c0 c1 : Nat) : ArrayLike → ArrayLike → Prop
  | ArrayLike.d2 xs, ArrayLike.d2 ys => sliceSpec 0 r0 r1 c0 c1 xs ys
  | ArrayLike.d3 xs, ArrayLike.d3 ys => sliceSpec [] r0 r1 c0 c1 xs ys
  | _, _ => False

lemma get_data_spec (s : OctreeLevel) (row col : Nat) :
    arraySliceSpec (row * s.info.meta.tile_size)
      ((row + 1) * s.info.meta.tile_size)
      (col * s.info.meta.tile_size)
      ((col + 1) * s.info.meta.tile_size)
      s.data (s.get_data row col) := by
  cases h : s.data with
  | d2 xs =>
    simp only [OctreeLevel.get_data, h, arraySliceSpec]
    exact sliceSpec_slice2 0 _ _ _ _ xs
  | d3 xs =>
    simp only [OctreeLevel.get_data, h, arraySliceSpec]
    exact sliceSpec_slice2 [] _ _ _ _ xs

lemma create_chunk_geom (s : OctreeLevel) (row col : Nat) :
    (s.create_chunk row col).geom =
      { pos := (col * (s.info.meta.tile_size * s.info.scale),
                row * (s.info.meta.tile_size * s.info.scale)),
        scale_vec := (s.info.scale, s.info.scale) } := rfl

lemma create_chunk_data (s : OctreeLevel) (row col : Nat) :
    (s.create_chunk row col).data = s.get_data row col := rfl

lemma get_chunk_create_some (s : OctreeLevel) (row col : Int)
    (hinv : s.cacheInv) (hb : s.inBounds row col) :
    ∃ ch, (s.get_chunk row col true).1 = some ch ∧
      ch = s.create_chunk row.toNat col.toNat := by
  cases h : tileLookup (row, col) s.tiles with
  | some ch =>
    rw [get_chunk_cached s row col true ch h]
    exact ⟨ch, rfl, (hinv row col ch h).2⟩
  | none =>
    rw [get_chunk_miss_create s row col h hb]
    exact ⟨s.create_chunk row.toNat col.toNat, rfl, rfl⟩

lemma make_shape_in_tiles (m : OctreeMetadata) (L : Nat) :
    (OctreeLevelInfo.make m L).shape_in_tiles =
      ((OctreeLevelInfo.make m L).rows, (OctreeLevelInfo.make m L).cols) := rfl

/-- C5: for every in-bounds (row, col) of a level reached by any sequence of
calls, get_chunk(row, col, create=true) returns a chunk whose geometry has
position (col*tile_size*scale, row*tile_size*scale) with scale = 2^level, and
per-axis scale vector (scale, scale). -/
theorem get_chunk_chunk_geom (slice_id : Nat) (arr : ArrayLike)
    (meta : OctreeMetadata) (level_index : Nat)
    (calls : List (Int × Int × Bool)) (row col : Nat)
    (hr : row < (OctreeLevelInfo.make meta level_index).rows)
    (hc : col < (OctreeLevelInfo.make meta level_index).cols) :
    ∃ ch,
      (((OctreeLevel.init slice_id arr meta level_index).run calls).get_chunk
          row col true).1 = some ch ∧
      ch.geom.pos = (col * (meta.tile_size * 2 ^ level_index),
        row * (meta.tile_size * 2 ^ level_index)) ∧
      ch.geom.scale_vec = (2 ^ level_index, 2 ^ level_index) := by
  set s := (OctreeLevel.init slice_id arr meta level_index).run calls with hs
  have hinfo : s.info = OctreeLevelInfo.make meta level_index :=
    (run_state calls _).2.2
  have hinv : s.cacheInv :=
    run_cacheInv calls _ (init_cacheInv slice_id arr meta level_index)
  have hb : s.inBounds row col := by
    unfold OctreeLevel.inBounds
    rw [hinfo, make_shape_in_tiles]
    refine ⟨Int.natCast_nonneg row, ?_, Int.natCast_nonneg col, ?_⟩
    · exact_mod_cast hr
    · exact_mod_cast hc
  obtain ⟨ch, hfst, hch⟩ := get_chunk_create_some s row col hinv hb
  refine ⟨ch, hfst, ?_, ?_⟩
  · rw [hch]
    simp only [Int.toNat_natCast]
    rw [create_chunk_geom, hinfo]
    rfl
  · rw [hch]
    simp only [Int.toNat_natCast]
    rw [create_chunk_geom, hinfo]
    rfl

theorem get_chunk_chunk_geom_witness :
    0 < (OctreeLevelInfo.make metaW 0).rows ∧
    1 < (OctreeLevelInfo.make metaW 0).cols ∧
    (∃ ch,
      (((OctreeLevel.init 3 dataW metaW 0).run []).get_chunk 0 1 true).1
        = some ch ∧
      ch.geom.pos = (1 * (metaW.tile_size * 2 ^ 0), 0 * (metaW.tile_size * 2 ^ 0)) ∧
      ch.geom.scale_vec = (2 ^ 0, 2 ^ 0)) :=
  ⟨by decide, by decide,
    get_chunk_chunk_geom 3 dataW metaW 0 [] 0 1 (by decide) (by decide)⟩

/-- C6: for every in-bounds (row, col) of a level reached by any sequence of
calls, the chunk materialized by get_chunk(row, col, create=true) carries the
data source sliced over rows [row*tile_size, (row+1)*tile_size) and columns
[col*tile_size, (col+1)*tile_size), clipped to the source's true extent; a
3-d source keeps its trailing axis unsliced (whole color fibers are copied). -/
theorem get_chunk_chunk_data (slice_id : Nat) (arr : ArrayLike)
    (meta : OctreeMetadata) (level_index : Nat)
    (calls : List (Int × Int × Bool)) (row col : Nat)
    (hr : row < (OctreeLevelInfo.make meta level_index).rows)
    (hc : col < (OctreeLevelInfo.make meta level_index).cols) :
    ∃ ch,
      (((OctreeLevel.init slice_id arr meta level_index).run calls).get_chunk
          row col true).1 = some ch ∧
      arraySliceSpec (row * meta.tile_size) ((row + 1) * meta.tile_size)
        (col * meta.tile_size) ((col + 1) * meta.tile_size) arr ch.data := by
  set s := (OctreeLevel.init slice_id arr meta level_index).run calls with hs
  have hinfo : s.info = OctreeLevelInfo.make meta level_index :=
    (run_state calls _).2.2
  have hdata : s.data = arr := (run_state calls _).2.1
  have hinv : s.cacheInv :=
    run_cacheInv calls _ (init_cacheInv slice_id arr meta level_index)
  have hb : s.inBounds row col := by
    unfold OctreeLevel.inBounds
    rw [hinfo, make_shape_in_tiles]
    refine ⟨Int.natCast_nonneg row, ?_, Int.natCast_nonneg col, ?_⟩
    · exact_mod_cast hr
    · exact_mod_cast hc
  obtain ⟨ch, hfst, hch⟩ := get_chunk_create_some s row col hinv hb
  refine ⟨ch, hfst, ?_⟩
  rw [hch]
  simp only [Int.toNat_natCast]
  rw [create_chunk_data]
  have hspec := get_data_spec s row col
  rw [hinfo, hdata] at hspec
  exact hspec

theorem get_chunk_chunk_data_witness :
    2 < (OctreeLevelInfo.make ⟨(5, 5), 2, 0⟩ 0).rows ∧
    2 < (OctreeLevelInfo.make ⟨(5, 5), 2, 0⟩ 0).cols ∧
    (∃ ch,
      (((OctreeLevel.init 0
            (ArrayLike.d2 [[1, 2, 3, 4, 5], [6, 7, 8, 9, 10],
              [11, 12, 13, 14, 15], [16, 17, 18, 19, 20],
              [21, 22, 23, 24, 25]]) ⟨(5, 5), 2, 0⟩ 0).run []).get_chunk
          2 2 true).1 = some ch ∧
      arraySliceSpec (2 * 2) (3 * 2) (2 * 2) (3 * 2)
        (ArrayLike.d2 [[1, 2, 3, 4, 5], [6, 7, 8, 9, 10],
          [11, 12, 13, 14, 15], [16, 17, 18, 19, 20],
          [21, 22, 23, 24, 25]]) ch.data) :=
  ⟨by decide, by decide,
    get_chunk_chunk_data 0
      (ArrayLike.d2 [[1, 2, 3, 4, 5], [6, 7, 8, 9, 10],
        [11, 12, 13, 14, 15], [16, 17, 18, 19, 20],
        [21, 22, 23, 24, 25]]) ⟨(5, 5), 2, 0⟩ 0 [] 2 2 (by decide) (by decide)⟩

theorem get_chunk_create_absent_iff_witness :
    ((levelW.get_chunk 5 5 true).1 = none ↔
      tileLookup (5, 5) levelW.tiles = none ∧ ¬ levelW.inBounds 5 5) ∧
    ((levelW.get_chunk 5 5 true).1 = none →
      (levelW.get_chunk 5 5 true).2 = levelW) :=
  get_chunk_create_absent_iff levelW 5 5
